import Mathlib

/-!
# Verification of the `types` Go package

Shallow embedding of `src/types.go`: four adapter types (`NullTime`,
`JSONRawMessage`, `NullJSONRawMessage`) plus the two generic helpers
(`JSONScan`, `JSONValue`), together with models of the parts of the Go
standard library they call into (`time.Time` JSON marshaling in RFC 3339
form, `sql.NullTime`, `encoding/json` for generic values, and `fmt`'s
`%s` verb on driver values).

Modelling conventions:
* Go byte slices (`[]byte`, `json.RawMessage`) are modelled as Lean
  `String`s; every operation in this package is byte-transparent
  (whole-value copies, `fmt.Sprintf("%s", ...)`), so string-level
  equalities coincide with byte-level ones.
* `time.Time` is modelled in UTC by its broken-down civil components
  (`GoTime`), the representation Go's RFC 3339 formatter and parser
  operate on.  Time-zone offsets other than `Z`, the monotonic clock
  reading, and JSON pre-validation of inputs that are not touched by
  any theorem are outside the model.
* Driver values (`driver.Value`) cover nil, string, bytes, int64, bool
  and time; `float64` values are omitted (floating-point formatting is
  outside the model and no claim involves it).
* Generic JSON values (`interface{}` holding a decoded JSON document)
  are modelled by `JVal`; numeric literals are restricted to integers.
-/

deriving instance DecidableEq for Except

/-- Go byte slices are modelled as strings (see module docstring). -/
abbrev Bytes := String

/-- Model of Go `time.Time` restricted to UTC: broken-down civil
components.  The zero value is January 1, year 1, 00:00:00 UTC. -/
structure GoTime where
  year : Int
  month : Nat
  day : Nat
  hour : Nat
  minute : Nat
  sec : Nat
  nsec : Nat
deriving DecidableEq, Repr

/-- The zero `time.Time` instant (January 1, year 1, 00:00:00 UTC). -/
def zeroGoTime : GoTime := ⟨1, 1, 1, 0, 0, 0, 0⟩

/-- Model of `time.Time.IsZero`. -/
def GoTime.IsZero (t : GoTime) : Bool := t == zeroGoTime

/-- Go's leap-year rule (`time.isLeap`). -/
def isLeap (y : Int) : Bool := y % 4 == 0 && (y % 100 != 0 || y % 400 == 0)

/-- Days in a month (`time.daysIn`). -/
def daysIn (year : Int) (month : Nat) : Nat :=
  if month = 2 then (if isLeap year then 29 else 28)
  else if month = 4 ∨ month = 6 ∨ month = 9 ∨ month = 11 then 30
  else 31

/-- A broken-down time that corresponds to a real `time.Time` instant:
all components in the ranges Go's calendar produces. -/
def GoTime.wf (t : GoTime) : Prop :=
  1 ≤ t.month ∧ t.month ≤ 12 ∧ 1 ≤ t.day ∧ t.day ≤ daysIn t.year t.month ∧
  t.hour ≤ 23 ∧ t.minute ≤ 59 ∧ t.sec ≤ 59 ∧ t.nsec < 1000000000

instance (t : GoTime) : Decidable t.wf := by
  unfold GoTime.wf
  infer_instance

/-! ## Decimal formatting helpers (Go `time` package `appendInt`-style) -/

/-- The ASCII digit character for `n % 10`. -/
def digitChar (n : Nat) : Char :=
  match n % 10 with
  | 0 => '0' | 1 => '1' | 2 => '2' | 3 => '3' | 4 => '4'
  | 5 => '5' | 6 => '6' | 7 => '7' | 8 => '8' | _ => '9'

/-- Two-digit zero-padded decimal. -/
def pad2 (n : Nat) : List Char := [digitChar (n / 10), digitChar n]

/-- Four-digit zero-padded decimal. -/
def pad4 (n : Nat) : List Char :=
  [digitChar (n / 1000), digitChar (n / 100), digitChar (n / 10), digitChar n]

/-- Nine-digit zero-padded decimal (nanoseconds). -/
def pad9 (n : Nat) : List Char :=
  [digitChar (n / 100000000), digitChar (n / 10000000), digitChar (n / 1000000),
   digitChar (n / 100000), digitChar (n / 10000), digitChar (n / 1000),
   digitChar (n / 100), digitChar (n / 10), digitChar n]

/-- Drop trailing `'0'` characters (Go's `.999999999` fraction trimming). -/
def trimZeros (l : List Char) : List Char :=
  (l.reverse.dropWhile (fun c => c == '0')).reverse

/-- The fractional-second part of RFC 3339 nano formatting: empty when the
nanosecond field is zero, otherwise a dot followed by the nine-digit
nanosecond count with trailing zeros removed. -/
def fracChars (nsec : Nat) : List Char :=
  if nsec = 0 then [] else '.' :: trimZeros (pad9 nsec)

/-- RFC 3339 with nanoseconds (Go layout `2006-01-02T15:04:05.999999999Z`),
for a UTC time whose year is within `[0, 9999]`.  Produced by
`time.Time.appendStrictRFC3339` after its year-range check. -/
def rfc3339NanoChars (t : GoTime) : List Char :=
  pad4 t.year.toNat ++ '-' :: (pad2 t.month ++ '-' :: (pad2 t.day ++ 'T' ::
    (pad2 t.hour ++ ':' :: (pad2 t.minute ++ ':' ::
      (pad2 t.sec ++ (fracChars t.nsec ++ ['Z']))))))

/-- Year component of `time.Time.String()`: four digits when in range,
Go's natural integer formatting otherwise (approximation; no claim
depends on out-of-range `%s`-formatted times). -/
def yearChars (y : Int) : List Char :=
  if 0 ≤ y ∧ y ≤ 9999 then pad4 y.toNat else (toString y).data

/-- Model of `time.Time.String()` for a UTC time
(`2006-01-02 15:04:05.999999999 +0000 UTC`), used by `fmt`'s `%s`. -/
def timeGoString (t : GoTime) : String :=
  String.mk (yearChars t.year ++ '-' :: (pad2 t.month ++ '-' :: (pad2 t.day ++ ' ' ::
    (pad2 t.hour ++ ':' :: (pad2 t.minute ++ ':' ::
      (pad2 t.sec ++ fracChars t.nsec ++ " +0000 UTC".data))))))

/-! ## Driver values -/

/-- Model of `database/sql/driver.Value`: nil, string, byte slice, int64,
bool or `time.Time` (float64 omitted, see module docstring). -/
inductive DriverValue where
  | null
  | str (s : String)
  | bytes (b : Bytes)
  | int64 (n : Int)
  | boolean (b : Bool)
  | time (t : GoTime)
deriving DecidableEq, Repr

/-- Model of `fmt.Sprintf("%s", v)` on a driver value.  A nil interface
prints as `%!s(<nil>)`; values without a string form print with the
`%!s(type=value)` fallback; `time.Time` prints via its `String` method. -/
def sprintfS : DriverValue → String
  | .null => "%!s(<nil>)"
  | .str s => s
  | .bytes b => b
  | .int64 n => "%!s(int64=" ++ toString n ++ ")"
  | .boolean b => "%!s(bool=" ++ (if b then "true" else "false") ++ ")"
  | .time t => timeGoString t

/-! ## RFC 3339 parsing (Go `time.parseRFC3339` / `Time.UnmarshalJSON`) -/

/-- Is `c` an ASCII decimal digit? -/
def isDig (c : Char) : Bool := decide (48 ≤ c.toNat ∧ c.toNat ≤ 57)

/-- Numeric value of an ASCII digit character. -/
def d2n (c : Char) : Nat := c.toNat - 48

/-- Value of a digit string, most significant first. -/
def digitsVal (l : List Char) : Nat := l.foldl (fun a c => a * 10 + d2n c) 0

/-- Read exactly two digits. -/
def parse2 : List Char → Except String (Nat × List Char)
  | a :: b :: rest =>
    if isDig a && isDig b then .ok (d2n a * 10 + d2n b, rest)
    else .error "parsing time: cannot parse field"
  | _ => .error "parsing time: cannot parse field"

/-- Read exactly four digits. -/
def parse4 : List Char → Except String (Nat × List Char)
  | a :: b :: c :: d :: rest =>
    if isDig a && isDig b && isDig c && isDig d then
      .ok (((d2n a * 10 + d2n b) * 10 + d2n c) * 10 + d2n d, rest)
    else .error "parsing time: cannot parse year"
  | _ => .error "parsing time: cannot parse year"

/-- Expect a specific character. -/
def expectCh (c : Char) : List Char → Except String (List Char)
  | a :: rest => if a = c then .ok rest else .error "parsing time: cannot parse field"
  | [] => .error "parsing time: cannot parse field"

/-- Read the optional fractional-second part: a dot followed by at least
one digit.  All digits are consumed; the first nine determine the
nanosecond count (Go truncates longer fractions). -/
def readFrac : List Char → Except String (Nat × List Char)
  | '.' :: rest =>
    let ds := rest.takeWhile isDig
    if ds.length = 0 then .error "parsing time: cannot parse fraction"
    else
      let ds9 := ds.take 9
      .ok (digitsVal ds9 * 10 ^ (9 - ds9.length), rest.dropWhile isDig)
  | s => .ok (0, s)

/-- Parse the inside of a quoted RFC 3339 timestamp followed by the
closing quote, checking the same component ranges Go's strict parser
checks.  Offsets other than `Z` are outside the UTC model. -/
def parseInner (s : List Char) : Except String GoTime :=
  match parse4 s with
  | .error e => .error e
  | .ok (y, s1) =>
  match expectCh '-' s1 with
  | .error e => .error e
  | .ok s2 =>
  match parse2 s2 with
  | .error e => .error e
  | .ok (mo, s3) =>
  match expectCh '-' s3 with
  | .error e => .error e
  | .ok s4 =>
  match parse2 s4 with
  | .error e => .error e
  | .ok (d, s5) =>
  match expectCh 'T' s5 with
  | .error e => .error e
  | .ok s6 =>
  match parse2 s6 with
  | .error e => .error e
  | .ok (h, s7) =>
  match expectCh ':' s7 with
  | .error e => .error e
  | .ok s8 =>
  match parse2 s8 with
  | .error e => .error e
  | .ok (mi, s9) =>
  match expectCh ':' s9 with
  | .error e => .error e
  | .ok s10 =>
  match parse2 s10 with
  | .error e => .error e
  | .ok (se, s11) =>
  match readFrac s11 with
  | .error e => .error e
  | .ok (ns, s12) =>
  match expectCh 'Z' s12 with
  | .error e => .error e
  | .ok s13 =>
  match expectCh '"' s13 with
  | .error e => .error e
  | .ok s14 =>
  if s14 ≠ [] then .error "parsing time: extra text"
  else if 1 ≤ mo ∧ mo ≤ 12 ∧ 1 ≤ d ∧ d ≤ daysIn (y : Int) mo ∧
          h ≤ 23 ∧ mi ≤ 59 ∧ se ≤ 59 then
    .ok ⟨(y : Int), mo, d, h, mi, se, ns⟩
  else .error "parsing time: field value out of range"

/-- Model of `time.Time.MarshalJSON`: errors when the year is outside
`[0, 9999]`, otherwise the RFC 3339 nano form in JSON quotes. -/
def timeMarshalJSON (t : GoTime) : Except String String :=
  if t.year < 0 ∨ 9999 < t.year then
    .error "Time.MarshalJSON: year outside of range [0,9999]"
  else .ok (String.mk ('"' :: (rfc3339NanoChars t ++ ['"'])))

/-- Model of `json.Unmarshal(data, &t)` for `t : time.Time`: the literal
`null` is a no-op (by the `json.Unmarshaler` convention implemented by
`time.Time.UnmarshalJSON`), otherwise the input must be a quoted
RFC 3339 timestamp. -/
def timeUnmarshalJSON (t : GoTime) (data : String) : Except String GoTime :=
  if data = "null" then .ok t
  else
    match data.data with
    | '"' :: rest => parseInner rest
    | _ => .error "Time.UnmarshalJSON: input is not a JSON string"

/-! ## `sql.NullTime` (database/sql) -/

/-- Model of `sql.NullTime`. -/
structure SqlNullTime where
  Time : GoTime
  Valid : Bool
deriving DecidableEq, Repr

/-- Model of `sql.NullTime.Scan`: nil yields the invalid zero value; a
`time.Time` driver value is stored directly; any other driver value is
rejected by `convertAssign`. -/
def SqlNullTime.Scan (value : DriverValue) : Except String SqlNullTime :=
  match value with
  | .null => .ok ⟨zeroGoTime, false⟩
  | .time t => .ok ⟨t, true⟩
  | _ => .error "unsupported Scan, storing driver.Value into type *time.Time"

/-- Model of `sql.NullTime.Value`: SQL NULL when invalid, otherwise the
wrapped `time.Time` as the driver value. -/
def SqlNullTime.Value (n : SqlNullTime) : Except String DriverValue :=
  if n.Valid then .ok (.time n.Time) else .ok .null

/-! ## `NullTime` (src/types.go lines 13-49) -/

/-- `NullTime.Scan`: delegate to `sql.NullTime.Scan` and keep the time. -/
def NullTime.Scan (value : DriverValue) : Except String GoTime :=
  match SqlNullTime.Scan value with
  | .error e => .error e
  | .ok v => .ok v.Time

/-- `NullTime.MarshalJSON`: a nil `*time.Time` (zero instant) marshals to
`null`; otherwise `json.Marshal` of the time pointer. -/
def NullTime.MarshalJSON (ns : GoTime) : Except String String :=
  if ns.IsZero then .ok "null" else timeMarshalJSON ns

/-- `NullTime.UnmarshalJSON`: unmarshal into a fresh zero `time.Time` and
store the result. -/
def NullTime.UnmarshalJSON (data : String) : Except String GoTime :=
  timeUnmarshalJSON zeroGoTime data

/-- `NullTime.Value`: `sql.NullTime{Valid: !IsZero, Time: t}.Value()`. -/
def NullTime.Value (ns : GoTime) : Except String DriverValue :=
  SqlNullTime.Value ⟨ns, !ns.IsZero⟩

/-! ## `JSONRawMessage` (src/types.go lines 51-83) -/

/-- `JSONRawMessage.Scan`: store the `%s` formatting of the driver value;
never fails. -/
def JSONRawMessage.Scan (value : DriverValue) : Except String Bytes :=
  .ok (sprintfS value)

/-- `JSONRawMessage.Value`: empty content becomes the text `"null"`,
otherwise the content as text. -/
def JSONRawMessage.Value (m : Bytes) : Except String DriverValue :=
  if m.length = 0 then .ok (.str "null") else .ok (.str m)

/-- `JSONRawMessage.MarshalJSON`: empty content becomes the literal
`null`, otherwise the content unchanged. -/
def JSONRawMessage.MarshalJSON (m : Bytes) : Except String Bytes :=
  if m.length = 0 then .ok "null" else .ok m

/-- `JSONRawMessage.UnmarshalJSON`: fails on a nil receiver, otherwise
replaces the contents with a copy of the input.  The receiver is
modelled as `Option Bytes` (`none` = nil pointer); the ok result is the
new contents. -/
def JSONRawMessage.UnmarshalJSON (m : Option Bytes) (data : Bytes) :
    Except String Bytes :=
  match m with
  | none => .error "json.RawMessage: UnmarshalJSON on nil pointer"
  | some _ => .ok data

/-! ## `NullJSONRawMessage` (src/types.go lines 85-120) -/

/-- `NullJSONRawMessage.Scan`: a nil driver value is first replaced by
the text `"null"`, then `%s`-formatted and stored; never fails. -/
def NullJSONRawMessage.Scan (value : DriverValue) : Except String Bytes :=
  .ok (sprintfS (if value = DriverValue.null then DriverValue.str "null" else value))

/-- `NullJSONRawMessage.Value`: empty content becomes SQL NULL, otherwise
the content as text. -/
def NullJSONRawMessage.Value (m : Bytes) : Except String DriverValue :=
  if m.length = 0 then .ok .null else .ok (.str m)

/-- `NullJSONRawMessage.MarshalJSON`: identical to
`JSONRawMessage.MarshalJSON`. -/
def NullJSONRawMessage.MarshalJSON (m : Bytes) : Except String Bytes :=
  if m.length = 0 then .ok "null" else .ok m

/-- `NullJSONRawMessage.UnmarshalJSON`: identical to
`JSONRawMessage.UnmarshalJSON`. -/
def NullJSONRawMessage.UnmarshalJSON (m : Option Bytes) (data : Bytes) :
    Except String Bytes :=
  match m with
  | none => .error "json.RawMessage: UnmarshalJSON on nil pointer"
  | some _ => .ok data

/-! ## Generic JSON values (`interface{}`) -/

mutual
/-- A generic decoded JSON document, as `encoding/json` stores into an
`interface{}` destination (numbers restricted to integers, and object
fields listed in the sorted order `json.Marshal` emits for maps). -/
inductive JVal where
  | null
  | boolean (b : Bool)
  | num (n : Int)
  | str (s : String)
  | arr (a : JArr)
  | obj (o : JObj)
deriving DecidableEq, Repr
/-- A list of JSON array elements. -/
inductive JArr where
  | nil
  | cons (v : JVal) (rest : JArr)
deriving DecidableEq, Repr
/-- A list of JSON object fields. -/
inductive JObj where
  | nil
  | cons (k : String) (v : JVal) (rest : JObj)
deriving DecidableEq, Repr
end

/-- Lower-case hexadecimal digit. -/
def hexDigit (n : Nat) : Char :=
  match n % 16 with
  | 0 => '0' | 1 => '1' | 2 => '2' | 3 => '3' | 4 => '4' | 5 => '5'
  | 6 => '6' | 7 => '7' | 8 => '8' | 9 => '9' | 10 => 'a' | 11 => 'b'
  | 12 => 'c' | 13 => 'd' | 14 => 'e' | _ => 'f'

/-- How `encoding/json` escapes one character inside a string literal
(with its default HTML escaping on, as both `json.Marshal` and
`json.Encoder` use). -/
def escapeChar (c : Char) : List Char :=
  if c = '"' then ['\\', '"']
  else if c = '\\' then ['\\', '\\']
  else if c = '\n' then ['\\', 'n']
  else if c = '\r' then ['\\', 'r']
  else if c = '\t' then ['\\', 't']
  else if c = '<' then "\\u003c".data
  else if c = '>' then "\\u003e".data
  else if c = '&' then "\\u0026".data
  else if c.toNat < 32 then
    ['\\', 'u', '0', '0', hexDigit (c.toNat / 16), hexDigit c.toNat]
  else if c.toNat = 8232 then "\\u2028".data
  else if c.toNat = 8233 then "\\u2029".data
  else [c]

/-- A JSON string literal for `s`, escaped the way `encoding/json`
writes it. -/
def jsonQuote (s : String) : String :=
  String.mk ('"' :: (s.data.map escapeChar).flatten ++ ['"'])

mutual
/-- Model of `json.Marshal` on a generic value: the compact JSON text
encoding. -/
def jsonEncode : JVal → String
  | .null => "null"
  | .boolean true => "true"
  | .boolean false => "false"
  | .num n => toString n
  | .str s => jsonQuote s
  | .arr a => "[" ++ jsonEncodeArr a ++ "]"
  | .obj o => "\x7b" ++ jsonEncodeObj o ++ "\x7d"
/-- Comma-separated encodings of array elements. -/
def jsonEncodeArr : JArr → String
  | .nil => ""
  | .cons v .nil => jsonEncode v
  | .cons v rest => jsonEncode v ++ "," ++ jsonEncodeArr rest
/-- Comma-separated `"key":value` encodings of object fields. -/
def jsonEncodeObj : JObj → String
  | .nil => ""
  | .cons k v .nil => jsonQuote k ++ ":" ++ jsonEncode v
  | .cons k v rest => jsonQuote k ++ ":" ++ jsonEncode v ++ "," ++ jsonEncodeObj rest
end

/-! ## Generic JSON parsing (`json.Unmarshal` into `interface{}`) -/

/-- JSON whitespace. -/
def isWs (c : Char) : Bool := c == ' ' || c == '\t' || c == '\n' || c == '\r'

/-- The `\x7b` opening-brace character. -/
def openBrace : Char := Char.ofNat 123

/-- The `\x7d` closing-brace character. -/
def closeBrace : Char := Char.ofNat 125

/-- Hexadecimal value of a character, if any. -/
def hexVal (c : Char) : Option Nat :=
  if isDig c then some (c.toNat - 48)
  else if 97 ≤ c.toNat ∧ c.toNat ≤ 102 then some (c.toNat - 87)
  else if 65 ≤ c.toNat ∧ c.toNat ≤ 70 then some (c.toNat - 55)
  else none

/-- Parse the remainder of a JSON string literal (after the opening
quote), decoding escapes.  Fuel-driven; the fuel supplied by
`jsonUnmarshalTop` always suffices. -/
def parseStrRest : Nat → List Char → Except String (List Char × List Char)
  | 0, _ => .error "input too deeply nested or malformed"
  | _ + 1, '"' :: r => .ok ([], r)
  | f + 1, '\\' :: e :: r =>
    if e = 'u' then
      match r with
      | h1 :: h2 :: h3 :: h4 :: r2 =>
        match hexVal h1, hexVal h2, hexVal h3, hexVal h4 with
        | some a, some b, some c, some d =>
          match parseStrRest f r2 with
          | .error err => .error err
          | .ok (cs, rest) =>
            .ok (Char.ofNat (((a * 16 + b) * 16 + c) * 16 + d) :: cs, rest)
        | _, _, _, _ => .error "invalid \\u escape"
      | _ => .error "invalid \\u escape"
    else
      match
        (if e = '"' then some '"'
         else if e = '\\' then some '\\'
         else if e = '/' then some '/'
         else if e = 'n' then some '\n'
         else if e = 'r' then some '\r'
         else if e = 't' then some '\t'
         else if e = 'b' then some (Char.ofNat 8)
         else if e = 'f' then some (Char.ofNat 12)
         else none) with
      | some c =>
        match parseStrRest f r with
        | .error err => .error err
        | .ok (cs, rest) => .ok (c :: cs, rest)
      | none => .error "invalid escape"
  | f + 1, c :: r =>
    match parseStrRest f r with
    | .error err => .error err
    | .ok (cs, rest) => .ok (c :: cs, rest)
  | _ + 1, [] => .error "unexpected end of string literal"

/-- Parse an optionally signed integer numeral. -/
def parseNum : List Char → Except String (Int × List Char)
  | '-' :: r =>
    let ds := r.takeWhile isDig
    if ds.length = 0 then .error "invalid number"
    else .ok (-(Int.ofNat (digitsVal ds)), r.dropWhile isDig)
  | r =>
    let ds := r.takeWhile isDig
    if ds.length = 0 then .error "invalid number"
    else .ok (Int.ofNat (digitsVal ds), r.dropWhile isDig)

mutual
/-- Fuel-driven model of decoding one JSON value into an `interface{}`
destination. -/
def parseJV : Nat → List Char → Except String (JVal × List Char)
  | 0, _ => .error "input too deeply nested or malformed"
  | f + 1, s =>
    match List.dropWhile isWs s with
    | 'n' :: 'u' :: 'l' :: 'l' :: r => .ok (.null, r)
    | 't' :: 'r' :: 'u' :: 'e' :: r => .ok (.boolean true, r)
    | 'f' :: 'a' :: 'l' :: 's' :: 'e' :: r => .ok (.boolean false, r)
    | '"' :: r =>
      match parseStrRest f r with
      | .error e => .error e
      | .ok (cs, rest) => .ok (.str (String.mk cs), rest)
    | '[' :: r =>
      match List.dropWhile isWs r with
      | ']' :: r2 => .ok (.arr .nil, r2)
      | s2 =>
        match parseArrElems f s2 with
        | .error e => .error e
        | .ok (a, rest) => .ok (.arr a, rest)
    | c :: r =>
      if c = openBrace then
        match List.dropWhile isWs r with
        | [] => .error "unexpected end of object"
        | c2 :: r2 =>
          if c2 = closeBrace then .ok (.obj .nil, r2)
          else
            match parseObjElems f (c2 :: r2) with
            | .error e => .error e
            | .ok (o, rest) => .ok (.obj o, rest)
      else if c = '-' ∨ isDig c then
        match parseNum (c :: r) with
        | .error e => .error e
        | .ok (n, rest) => .ok (.num n, rest)
      else .error "invalid character looking for beginning of value"
    | [] => .error "unexpected end of JSON input"
/-- Parse one or more comma-separated array elements and the closing
bracket. -/
def parseArrElems : Nat → List Char → Except String (JArr × List Char)
  | 0, _ => .error "input too deeply nested or malformed"
  | f + 1, s =>
    match parseJV f s with
    | .error e => .error e
    | .ok (v, r) =>
      match List.dropWhile isWs r with
      | ',' :: r2 =>
        match parseArrElems f r2 with
        | .error e => .error e
        | .ok (a, rest) => .ok (.cons v a, rest)
      | ']' :: r2 => .ok (.cons v .nil, r2)
      | _ => .error "invalid character after array element"
/-- Parse one or more comma-separated object fields and the closing
brace. -/
def parseObjElems : Nat → List Char → Except String (JObj × List Char)
  | 0, _ => .error "input too deeply nested or malformed"
  | f + 1, s =>
    match List.dropWhile isWs s with
    | '"' :: r =>
      match parseStrRest f r with
      | .error e => .error e
      | .ok (k, r2) =>
        match List.dropWhile isWs r2 with
        | ':' :: r3 =>
          match parseJV f r3 with
          | .error e => .error e
          | .ok (v, r4) =>
            match List.dropWhile isWs r4 with
            | ',' :: r5 =>
              match parseObjElems f r5 with
              | .error e => .error e
              | .ok (o, rest) => .ok (.cons (String.mk k) v o, rest)
            | c :: r5 =>
              if c = closeBrace then .ok (.cons (String.mk k) v .nil, r5)
              else .error "invalid character after object field"
            | [] => .error "unexpected end of object"
        | _ => .error "expected colon after object key"
    | _ => .error "expected object key"
end

/-- Model of `json.Unmarshal(data, &dst)` for `dst : interface{}`: parse
one JSON value, allowing surrounding whitespace, requiring the whole
input to be consumed.  The supplied fuel exceeds the maximal number of
parsing steps for the input. -/
def jsonUnmarshalTop (data : String) : Except String JVal :=
  match parseJV (data.length * 2 + 8) data.data with
  | .error e => .error e
  | .ok (v, r) => if List.dropWhile isWs r = [] then .ok v else .error "trailing data"

/-! ## Generic helpers (src/types.go lines 122-143) -/

/-- `JSONScan`: a nil column value is replaced by the text `"null"`; the
`%s` formatting of the value is then JSON-decoded into the destination.
A generic (`interface{}`) destination is wholly replaced by the decoded
value, so the prior contents `dst` do not affect the result; decode
failures are wrapped with context. -/
def JSONScan (dst : JVal) (value : DriverValue) : Except String JVal :=
  let value := if value = DriverValue.null then DriverValue.str "null" else value
  match jsonUnmarshalTop (sprintfS value) with
  | .error e => .error ("unable to decode payload to: " ++ e)
  | .ok x => .ok x

/-- `JSONValue`: a nil source produces SQL NULL; otherwise the source is
encoded by `json.Encoder.Encode`, which emits the `json.Marshal` text
followed by a newline, and the resulting text is the driver value. -/
def JSONValue (src : Option JVal) : Except String DriverValue :=
  match src with
  | none => .ok .null
  | some v => .ok (.str (jsonEncode v ++ "\n"))

/-! ## Concrete instants used in counterexamples and witnesses -/

/-- A well-formed instant whose year is outside `[0, 9999]`. -/
def yearTenK : GoTime := ⟨10000, 1, 1, 0, 0, 0, 0⟩

/-- A well-formed non-zero instant with a trimmed fractional second. -/
def sampleTime : GoTime := ⟨2006, 1, 2, 15, 4, 5, 500000000⟩

/-- A well-formed instant on a leap day. -/
def leapTime : GoTime := ⟨2020, 2, 29, 23, 59, 59, 1⟩

/-! ## Round-trip lemmas: formatting and reparsing digits -/

theorem d2n_digitChar (n : Nat) : d2n (digitChar n) = n % 10 := by
  have h : n % 10 = 0 ∨ n % 10 = 1 ∨ n % 10 = 2 ∨ n % 10 = 3 ∨ n % 10 = 4 ∨
      n % 10 = 5 ∨ n % 10 = 6 ∨ n % 10 = 7 ∨ n % 10 = 8 ∨ n % 10 = 9 := by omega
  simp only [digitChar]
  rcases h with h | h | h | h | h | h | h | h | h | h <;> rw [h] <;> rfl

theorem isDig_digitChar (n : Nat) : isDig (digitChar n) = true := by
  have h : n % 10 = 0 ∨ n % 10 = 1 ∨ n % 10 = 2 ∨ n % 10 = 3 ∨ n % 10 = 4 ∨
      n % 10 = 5 ∨ n % 10 = 6 ∨ n % 10 = 7 ∨ n % 10 = 8 ∨ n % 10 = 9 := by omega
  simp only [digitChar]
  rcases h with h | h | h | h | h | h | h | h | h | h <;> rw [h] <;> rfl

theorem parse2_pad2 (n : Nat) (hn : n < 100) (rest : List Char) :
    parse2 (pad2 n ++ rest) = .ok (n, rest) := by
  simp only [pad2, List.cons_append, List.nil_append, parse2, isDig_digitChar,
    Bool.and_self, if_true, d2n_digitChar]
  have : n / 10 % 10 * 10 + n % 10 = n := by omega
  rw [this]

theorem parse4_pad4 (n : Nat) (hn : n < 10000) (rest : List Char) :
    parse4 (pad4 n ++ rest) = .ok (n, rest) := by
  simp only [pad4, List.cons_append, List.nil_append, parse4, isDig_digitChar,
    Bool.and_self, if_true, d2n_digitChar]
  have : ((n / 1000 % 10 * 10 + n / 100 % 10) * 10 + n / 10 % 10) * 10 + n % 10 = n := by
    omega
  rw [this]

theorem expectCh_cons (c : Char) (r : List Char) : expectCh c (c :: r) = .ok r := by
  simp [expectCh]

theorem digitsVal_append_singleton (l : List Char) (c : Char) :
    digitsVal (l ++ [c]) = digitsVal l * 10 + d2n c := by
  simp [digitsVal, List.foldl_append]

theorem trimZeros_append_zero (l : List Char) : trimZeros (l ++ ['0']) = trimZeros l := by
  simp [trimZeros, List.dropWhile]

theorem trimZeros_append_nonzero (l : List Char) (c : Char) (h : ¬ c = '0') :
    trimZeros (l ++ [c]) = l ++ [c] := by
  simp [trimZeros, List.dropWhile, h]

theorem trimZeros_val (l : List Char) :
    digitsVal (trimZeros l) * 10 ^ (l.length - (trimZeros l).length) = digitsVal l ∧
    (trimZeros l).length ≤ l.length := by
  induction l using List.reverseRecOn with
  | nil => simp [trimZeros, digitsVal]
  | append_singleton l c ih =>
    by_cases hc : c = '0'
    · subst hc
      rw [trimZeros_append_zero]
      obtain ⟨h1, h2⟩ := ih
      refine ⟨?_, by simp; omega⟩
      rw [digitsVal_append_singleton]
      have hd : d2n '0' = 0 := rfl
      rw [hd, List.length_append, List.length_singleton]
      rw [show l.length + 1 - (trimZeros l).length = (l.length - (trimZeros l).length) + 1
        from by omega]
      rw [pow_succ, ← mul_assoc, h1]
      omega
    · rw [trimZeros_append_nonzero l c hc]
      simp

theorem mem_of_mem_trimZeros (l : List Char) (c : Char) (h : c ∈ trimZeros l) : c ∈ l := by
  simp only [trimZeros, List.mem_reverse] at h
  have := (List.dropWhile_sublist (l := l.reverse) (p := fun c => c == '0')).subset h
  simpa using this

theorem isDig_of_mem_pad9 (n : Nat) : ∀ c ∈ pad9 n, isDig c = true := by
  intro c hc
  simp only [pad9, List.mem_cons, List.not_mem_nil, or_false] at hc
  rcases hc with rfl | rfl | rfl | rfl | rfl | rfl | rfl | rfl | rfl <;>
    exact isDig_digitChar _

theorem digitsVal_pad9 (n : Nat) (h : n < 1000000000) : digitsVal (pad9 n) = n := by
  simp only [digitsVal, pad9, List.foldl_cons, List.foldl_nil, d2n_digitChar, Nat.zero_mul,
    Nat.zero_add]
  omega

theorem takeWhile_append_not (p : Char → Bool) (l : List Char) (c : Char) (r : List Char)
    (hl : ∀ x ∈ l, p x = true) (hc : p c = false) :
    (l ++ c :: r).takeWhile p = l ∧ (l ++ c :: r).dropWhile p = c :: r := by
  induction l with
  | nil => simp [List.takeWhile, List.dropWhile, hc]
  | cons a l ih =>
    have ha : p a = true := hl a (List.mem_cons_self _ _)
    have ih2 := ih (fun x hx => hl x (List.mem_cons_of_mem _ hx))
    simp [List.takeWhile_cons, List.dropWhile_cons, ha, ih2.1, ih2.2]

theorem readFrac_frac (ns : Nat) (h : ns < 1000000000) (r : List Char) :
    readFrac (fracChars ns ++ 'Z' :: r) = .ok (ns, 'Z' :: r) := by
  by_cases h0 : ns = 0
  · subst h0
    simp [fracChars, readFrac]
  · have hfc : fracChars ns = '.' :: trimZeros (pad9 ns) := by
      simp [fracChars, h0]
    rw [hfc]
    have hdigs : ∀ x ∈ trimZeros (pad9 ns), isDig x = true := fun x hx =>
      isDig_of_mem_pad9 ns x (mem_of_mem_trimZeros _ x hx)
    have hZ : isDig 'Z' = false := rfl
    obtain ⟨htake, hdrop⟩ := takeWhile_append_not isDig (trimZeros (pad9 ns)) 'Z' r hdigs hZ
    obtain ⟨hval, hlen⟩ := trimZeros_val (pad9 ns)
    have hlen9 : (pad9 ns).length = 9 := rfl
    rw [hlen9] at hval hlen
    have hpadval : digitsVal (pad9 ns) = ns := digitsVal_pad9 ns h
    rw [hpadval] at hval
    have hne : (trimZeros (pad9 ns)).length ≠ 0 := by
      intro hz
      rw [List.length_eq_zero.mp hz] at hval
      simp [digitsVal] at hval
      omega
    simp only [List.cons_append, readFrac, htake, hdrop, hne, if_false]
    rw [List.take_of_length_le (by omega)]
    rw [hval]

theorem daysIn_le (y : Int) (m : Nat) : daysIn y m ≤ 31 := by
  unfold daysIn
  split
  · split <;> omega
  · split <;> omega

theorem parseInner_format (t : GoTime) (hwf : t.wf) (h0 : 0 ≤ t.year) (h1 : t.year ≤ 9999) :
    parseInner (rfc3339NanoChars t ++ ['"']) = .ok t := by
  obtain ⟨y, mo, d, h, mi, se, ns⟩ := t
  replace hwf : 1 ≤ mo ∧ mo ≤ 12 ∧ 1 ≤ d ∧ d ≤ daysIn y mo ∧ h ≤ 23 ∧ mi ≤ 59 ∧
      se ≤ 59 ∧ ns < 1000000000 := hwf
  replace h0 : (0 : Int) ≤ y := h0
  replace h1 : y ≤ 9999 := h1
  obtain ⟨hmo1, hmo2, hd1, hd2, hh, hmi, hse, hns⟩ := hwf
  have hy : y.toNat < 10000 := by omega
  have hd100 : d < 100 := by have := daysIn_le y mo; omega
  simp only [rfc3339NanoChars, List.append_assoc, List.cons_append, List.nil_append]
  simp only [parseInner, parse4_pad4 y.toNat hy, expectCh_cons,
    parse2_pad2 mo (by omega), parse2_pad2 d hd100, parse2_pad2 h (by omega),
    parse2_pad2 mi (by omega), parse2_pad2 se (by omega), readFrac_frac ns hns]
  rw [Int.toNat_of_nonneg h0]
  rw [if_neg (by simp), if_pos ⟨hmo1, hmo2, hd1, hd2, hh, hmi, hse⟩]

theorem marshal_chars_ne_null (l : List Char) : String.mk ('"' :: l) ≠ "null" := by
  intro h
  have h2 := congrArg String.data h
  have h3 : "null".data = ['n', 'u', 'l', 'l'] := rfl
  rw [h3] at h2
  simp at h2

theorem timeUnmarshal_timeMarshal (t t0 : GoTime) (hwf : t.wf) (h0 : 0 ≤ t.year)
    (h1 : t.year ≤ 9999) :
    timeUnmarshalJSON t0 (String.mk ('"' :: (rfc3339NanoChars t ++ ['"']))) = .ok t := by
  unfold timeUnmarshalJSON
  rw [if_neg (marshal_chars_ne_null _)]
  show parseInner (rfc3339NanoChars t ++ ['"']) = Except.ok t
  exact parseInner_format t hwf h0 h1

/-! ## Claim theorems -/

/-- C1: for the `NullTime` adapter the zero instant maps to absence in both
output domains: `Value` on the zero instant produces SQL NULL, and
`MarshalJSON` on the zero instant produces exactly the four-byte literal
`null`. -/
theorem nullTime_zero_sentinel :
    NullTime.Value zeroGoTime = .ok DriverValue.null ∧
    NullTime.MarshalJSON zeroGoTime = .ok "null" ∧ ("null" : Bytes).length = 4 :=
  ⟨rfl, rfl, rfl⟩

/-- C2: `NullTime.UnmarshalJSON` on the input bytes `null` succeeds and sets
the receiver to the zero instant. -/
theorem nullTime_unmarshal_null : NullTime.UnmarshalJSON "null" = .ok zeroGoTime := rfl

/-- C3 as stated is false: `yearTenK` is a well-formed non-zero instant, but
`MarshalJSON` fails on it (year outside `[0,9999]`), so no marshaled bytes
exist to round-trip through `UnmarshalJSON`. -/
theorem nullTime_roundtrip_fails_year10000 :
    (yearTenK.wf ∧ yearTenK ≠ zeroGoTime) ∧
    ¬ ∃ b, NullTime.MarshalJSON yearTenK = .ok b ∧
      NullTime.UnmarshalJSON b = .ok yearTenK := by
  refine ⟨by decide, ?_⟩
  rintro ⟨b, hb, -⟩
  have he : NullTime.MarshalJSON yearTenK =
      .error "Time.MarshalJSON: year outside of range [0,9999]" := rfl
  rw [he] at hb
  exact Except.noConfusion hb

/-- C3 (amended): for every well-formed non-zero instant `t`, scanning the
driver value produced by `Value` yields `t` back; and whenever `t`'s year also
lies within `[0, 9999]` (the range in which `time.Time.MarshalJSON` can
succeed), unmarshaling the bytes produced by `MarshalJSON` yields `t` back. -/
theorem nullTime_roundtrip (t : GoTime) (hwf : t.wf) (hnz : t ≠ zeroGoTime) :
    (∃ dv, NullTime.Value t = .ok dv ∧ NullTime.Scan dv = .ok t) ∧
    (0 ≤ t.year → t.year ≤ 9999 →
      ∃ b, NullTime.MarshalJSON t = .ok b ∧ NullTime.UnmarshalJSON b = .ok t) := by
  have hz : t.IsZero = false := by
    simp [GoTime.IsZero, hnz]
  constructor
  · refine ⟨.time t, ?_, rfl⟩
    simp [NullTime.Value, SqlNullTime.Value, hz]
  · intro h0 h1
    refine ⟨String.mk ('"' :: (rfc3339NanoChars t ++ ['"'])), ?_, ?_⟩
    · unfold NullTime.MarshalJSON
      rw [hz]
      simp only [Bool.false_eq_true, if_false]
      unfold timeMarshalJSON
      rw [if_neg (by omega)]
    · exact timeUnmarshal_timeMarshal t zeroGoTime hwf h0 h1

/-- Witness for C3 (amended) at the concrete instant `sampleTime`. -/
theorem nullTime_roundtrip_witness :
    (∃ dv, NullTime.Value sampleTime = .ok dv ∧ NullTime.Scan dv = .ok sampleTime) ∧
    (0 ≤ sampleTime.year → sampleTime.year ≤ 9999 →
      ∃ b, NullTime.MarshalJSON sampleTime = .ok b ∧
        NullTime.UnmarshalJSON b = .ok sampleTime) :=
  nullTime_roundtrip sampleTime (by decide) (by decide)

/-- C4: on empty contents the two raw-payload adapters diverge exactly as
specified: empty `JSONRawMessage.Value` is the four-character text `"null"`
(not SQL NULL), empty `NullJSONRawMessage.Value` is true SQL NULL, and both
adapters marshal empty contents to the literal `null`. -/
theorem rawPayload_empty_divergence :
    JSONRawMessage.Value "" = .ok (DriverValue.str "null") ∧
    DriverValue.str "null" ≠ DriverValue.null ∧
    ("null" : Bytes).length = 4 ∧
    NullJSONRawMessage.Value "" = .ok DriverValue.null ∧
    JSONRawMessage.MarshalJSON "" = .ok "null" ∧
    NullJSONRawMessage.MarshalJSON "" = .ok "null" :=
  ⟨rfl, by decide, rfl, rfl, rfl, rfl⟩

/-- C5 as stated is false: on the non-nil source `5`, `JSONValue` returns the
JSON text with a trailing newline (`json.Encoder.Encode` appends one), which
differs from the exact JSON text encoding of the source. -/
theorem jsonValue_not_exact_encoding :
    JSONValue (some (JVal.num 5)) = .ok (.str "5\n") ∧
    jsonEncode (JVal.num 5) = "5" ∧
    JSONValue (some (JVal.num 5)) ≠ .ok (.str (jsonEncode (JVal.num 5))) :=
  ⟨rfl, by decide, by decide⟩

/-- C5 (amended): `JSONValue` returns SQL NULL without error when its source
is nil, and for every non-nil source value `v` it returns the JSON text
encoding of `v` followed by a newline character as the driver value. -/
theorem jsonValue_spec :
    JSONValue none = .ok DriverValue.null ∧
    ∀ v, JSONValue (some v) = .ok (.str (jsonEncode v ++ "\n")) :=
  ⟨rfl, fun _ => rfl⟩

/-- C6: for every destination, `JSONScan` with a nil column value produces
exactly the same result as with the text `"null"`, and that common result is
the JSON-null-decoded destination state. -/
theorem jsonScan_nil_as_null (dst : JVal) :
    JSONScan dst DriverValue.null = JSONScan dst (DriverValue.str "null") ∧
    JSONScan dst DriverValue.null = .ok JVal.null :=
  ⟨rfl, rfl⟩

/-- C7 as stated is false: `MarshalJSON` returns an error on the valid
in-memory instant `yearTenK` (year 10000). -/
theorem nullTime_marshal_fails_year10000 :
    yearTenK.wf ∧
    NullTime.MarshalJSON yearTenK =
      .error "Time.MarshalJSON: year outside of range [0,9999]" :=
  ⟨by decide, rfl⟩

/-- C7 (amended): `NullTime.MarshalJSON` never returns an error for an
instant whose year lies within `[0, 9999]` (the zero instant included). -/
theorem nullTime_marshal_total (t : GoTime) (h0 : 0 ≤ t.year) (h1 : t.year ≤ 9999) :
    ∃ b, NullTime.MarshalJSON t = .ok b := by
  unfold NullTime.MarshalJSON
  by_cases hz : t.IsZero
  · rw [hz]
    exact ⟨"null", by simp⟩
  · rw [Bool.not_eq_true] at hz
    rw [hz]
    simp only [Bool.false_eq_true, if_false]
    unfold timeMarshalJSON
    rw [if_neg (by omega)]
    exact ⟨_, rfl⟩

/-- Witness for C7 (amended) at the concrete instant `leapTime`. -/
theorem nullTime_marshal_total_witness : ∃ b, NullTime.MarshalJSON leapTime = .ok b :=
  nullTime_marshal_total leapTime (by decide) (by decide)

/-- C8: for both raw-payload adapters, `UnmarshalJSON` fails with the
nil-receiver error exactly when the receiver is nil (`none`), and otherwise
succeeds for every input and prior contents, replacing the contents with the
input verbatim with no validation. -/
theorem rawPayload_unmarshal_nil_receiver (old data : Bytes) :
    JSONRawMessage.UnmarshalJSON none data =
      .error "json.RawMessage: UnmarshalJSON on nil pointer" ∧
    NullJSONRawMessage.UnmarshalJSON none data =
      .error "json.RawMessage: UnmarshalJSON on nil pointer" ∧
    JSONRawMessage.UnmarshalJSON (some old) data = .ok data ∧
    NullJSONRawMessage.UnmarshalJSON (some old) data = .ok data :=
  ⟨rfl, rfl, rfl, rfl⟩

/-- C9: for every non-empty contents `b`, `JSONRawMessage.MarshalJSON`
returns exactly `b`, unchanged, and never fails. -/
theorem rawPayload_marshal_passthrough (b : Bytes) (h : b ≠ "") :
    JSONRawMessage.MarshalJSON b = .ok b := by
  unfold JSONRawMessage.MarshalJSON
  rw [if_neg]
  intro hlen
  apply h
  cases b with
  | mk l =>
    cases l with
    | nil => rfl
    | cons c cs => simp [String.length] at hlen

/-- Witness for C9 at a concrete non-empty payload. -/
theorem rawPayload_marshal_passthrough_witness :
    JSONRawMessage.MarshalJSON "[1]" = .ok "[1]" :=
  rawPayload_marshal_passthrough "[1]" (by decide)

/-- C10: both raw-payload `Scan` operations never return an error, and on the
nil driver value they disagree: `NullJSONRawMessage.Scan` stores the four
bytes `null` while `JSONRawMessage.Scan` stores the generic `%s` formatting of
nil, which is not `null`. -/
theorem rawPayload_scan_divergence :
    (∀ v, ∃ b, JSONRawMessage.Scan v = .ok b) ∧
    (∀ v, ∃ b, NullJSONRawMessage.Scan v = .ok b) ∧
    NullJSONRawMessage.Scan DriverValue.null = .ok "null" ∧
    ("null" : Bytes).length = 4 ∧
    JSONRawMessage.Scan DriverValue.null = .ok "%!s(<nil>)" ∧
    ("%!s(<nil>)" : Bytes) ≠ "null" :=
  ⟨fun _ => ⟨_, rfl⟩, fun _ => ⟨_, rfl⟩, rfl, rfl, rfl, by decide⟩

/-- Witness for C6 at a concrete destination. -/
theorem jsonScan_nil_as_null_witness :
    JSONScan (JVal.num 7) DriverValue.null = JSONScan (JVal.num 7) (DriverValue.str "null") ∧
    JSONScan (JVal.num 7) DriverValue.null = .ok JVal.null :=
  jsonScan_nil_as_null (JVal.num 7)

/-- Witness for C8 at concrete prior contents and input. -/
theorem rawPayload_unmarshal_nil_receiver_witness :
    JSONRawMessage.UnmarshalJSON none "not json" =
      .error "json.RawMessage: UnmarshalJSON on nil pointer" ∧
    NullJSONRawMessage.UnmarshalJSON none "not json" =
      .error "json.RawMessage: UnmarshalJSON on nil pointer" ∧
    JSONRawMessage.UnmarshalJSON (some "old") "not json" = .ok "not json" ∧
    NullJSONRawMessage.UnmarshalJSON (some "old") "not json" = .ok "not json" :=
  rawPayload_unmarshal_nil_receiver "old" "not json"
